import Mathlib

/-!
Shallow embedding of `lib/mpl_toolkits/axes_grid1/axes_grid.py`
(classes `Grid` and `ImageGrid`): the grid layout planner that builds the
horizontal/vertical `Size` sequences of a `Divider`, assigns `Locator`s to
axis and colorbar slots, validates the configuration, and applies the
label-mode policy.  Machine floats carried by sizes are modelled as `ℚ`
(the code performs no arithmetic on them besides storing and reading).
-/

namespace AxesGrid

/-- `direction` parameter of `Grid.__init__`: row-major or column-major fill. -/
inductive Direction
  | row
  | column
  deriving DecidableEq, Repr

/-- `cbar_mode` parameter of `ImageGrid.__init__` (`None` is `none`). -/
inductive CbarMode
  | each
  | single
  | edge
  deriving DecidableEq, Repr

/-- `cbar_location` parameter of `ImageGrid.__init__`. -/
inductive CbarLocation
  | left
  | right
  | bottom
  | top
  deriving DecidableEq, Repr

/-- `Grid._get_col_row(n)`: returns the `(col, row)` pair of slot index `n`.
`direction == "column"`: `col, row = divmod(n, nrows)`;
otherwise (`"row"`): `row, col = divmod(n, ncols)`. -/
def get_col_row (direction : Direction) (nrows ncols : ℕ) (n : ℕ) : ℕ × ℕ :=
  match direction with
  | .column => (n / nrows, n % nrows)
  | .row => (n % ncols, n / ncols)

/-- The argument classification the constructors make for `rect`:
a scalar (`str`/`Number`/`SubplotSpec`) or a sequence of some length. -/
inductive RectArg
  | scalar
  | seq (len : ℕ)
  deriving DecidableEq, Repr

/-- Errors raised synchronously by `Grid.__init__` / `ImageGrid.__init__`. -/
inductive ConfigError
  | badNgrids
  | badDirection
  | badRect
  | badCbarLocation
  deriving DecidableEq, Repr

/-- Raw direction argument: the two valid strings or anything else. -/
inductive DirectionArg
  | row
  | column
  | other
  deriving DecidableEq, Repr

/-- Raw `cbar_location` argument: the four valid strings or anything else. -/
inductive CbarLocationArg
  | left
  | right
  | bottom
  | top
  | other
  deriving DecidableEq, Repr

/-- `cbook._check_in_list(["column", "row"], direction=direction)`:
succeeds exactly on the two listed strings. -/
def checkDirection : DirectionArg → Except ConfigError Direction
  | .row => .ok .row
  | .column => .ok .column
  | .other => .error .badDirection

/-- The `rect` dispatch of both constructors: scalar (`str`/`Number`/
`SubplotSpec`) and 3- or 4-element sequences are accepted, any other
sequence length hits the final `raise Exception("")`. -/
def checkRect : RectArg → Except ConfigError Unit
  | .scalar => .ok ()
  | .seq l =>
      if l = 3 then .ok ()
      else if l = 4 then .ok ()
      else .error .badRect

/-- Modelled from the spec: validation of `cbar_location`.  The excerpt's
`ImageGrid.__init__` forwards `cbar_location` to collaborator code outside
the excerpt (`CbarAxes` / `mpl_axes`); per the spec an invalid
`cbarLocation` raises a configuration error synchronously at construction. -/
def checkCbarLocation : CbarLocationArg → Except ConfigError CbarLocation
  | .left => .ok .left
  | .right => .ok .right
  | .bottom => .ok .bottom
  | .top => .ok .top
  | .other => .error .badCbarLocation

/-- The `ngrids` resolution at the top of both constructors: `None` becomes
`nrows * ncols`; an explicit value outside `(0, nrows*ncols]` raises. -/
def checkNgrids (nrows ncols : ℕ) : Option ℕ → Except ConfigError ℕ
  | none => .ok (nrows * ncols)
  | some g =>
      if 0 < g ∧ g ≤ nrows * ncols then .ok g else .error .badNgrids

/-- The validation pass of `Grid.__init__`, in source order: `ngrids`
(lines 142-146), then `direction` (line 152), then `rect` (lines 159-166).
Returns the resolved `(ngrids, direction)` on success. -/
def validateGrid (nrows ncols : ℕ) (ngrids : Option ℕ)
    (direction : DirectionArg) (rect : RectArg) :
    Except ConfigError (ℕ × Direction) := do
  let g ← checkNgrids nrows ncols ngrids
  let d ← checkDirection direction
  let _ ← checkRect rect
  pure (g, d)

/-- The validation pass of `ImageGrid.__init__`: as `validateGrid`, plus the
(spec-modelled, see `checkCbarLocation`) `cbar_location` check. -/
def validateImageGrid (nrows ncols : ℕ) (ngrids : Option ℕ)
    (direction : DirectionArg) (rect : RectArg)
    (cbarLocation : CbarLocationArg) :
    Except ConfigError (ℕ × Direction × CbarLocation) := do
  let g ← checkNgrids nrows ncols ngrids
  let loc ← checkCbarLocation cbarLocation
  let d ← checkDirection direction
  let _ ← checkRect rect
  pure (g, d, loc)

/-- References to axes whose resolved size a `Size` term depends on.
`axesX row col` stands for `Size.AxesX(axes_array[row][col], aspect="axes",
ref_ax=self.axes_all[0])` (similarly `axesY`); `fracX n` stands for
`Size.Fraction(n, Size.AxesX(self.axes_llc))` (similarly `fracY`). -/
inductive SizeRef
  | axesX (row col : ℕ)
  | axesY (row col : ℕ)
  | fracX (n : ℕ)
  | fracY (n : ℕ)
  deriving DecidableEq, Repr

/-- The first argument handed to `Size.from_any` (`cbar_size` / `cbar_pad`
values): a plain number, or a percentage string such as `"5%"`. -/
inductive PadSpec
  | num (v : ℚ)
  | pct (v : ℚ)
  deriving DecidableEq, Repr

/-- One entry of a Divider `Size` sequence, as built by `_update_locators`.
The two `Size.Fixed` padding objects created by `_init_axes_pad` are stored
by reference, not by value: they appear as `hpadRef` / `vpadRef`, and their
current `fixed_size` lives in the grid state, so a mutation through
`set_axes_pad` is visible at every occurrence in the sequences. -/
inductive SizeEntry
  | scaled (w : ℚ)
  | hpadRef
  | vpadRef
  | ref (r : SizeRef)
  | fromAny (sp : PadSpec) (r : SizeRef)
  deriving DecidableEq, Repr

/-- `Divider.new_locator(nx, nx1, ny, ny1)`: cell-boundary indices into the
size sequences.  `none` is Python `None` ("next boundary"); negative values
index from the end. -/
structure Locator where
  nx : ℤ
  nx1 : Option ℤ := none
  ny : ℤ
  ny1 : Option ℤ := none
  deriving DecidableEq, Repr

/-- One iteration of the horizontal loop of `Grid._update_locators`
(lines 202-207): append the shared pad between consecutive cells, record
`len(h)` in `h_ax_pos`, then append a `Size.Scaled(1)` cell. -/
def gridHStep (st : List SizeEntry × List ℕ) (_i : ℕ) :
    List SizeEntry × List ℕ :=
  let h := if st.1 ≠ [] then st.1 ++ [SizeEntry.hpadRef] else st.1
  (h ++ [SizeEntry.scaled 1], st.2 ++ [h.length])

/-- The horizontal sequence `h` and positions `h_ax_pos` built by
`Grid._update_locators` (lines 200-207). -/
def gridBuildH (ncols : ℕ) : List SizeEntry × List ℕ :=
  (List.range ncols).foldl gridHStep ([], [])

/-- One iteration of the vertical loop of `Grid._update_locators`
(lines 211-216). -/
def gridVStep (st : List SizeEntry × List ℕ) (_i : ℕ) :
    List SizeEntry × List ℕ :=
  let v := if st.1 ≠ [] then st.1 ++ [SizeEntry.vpadRef] else st.1
  (v ++ [SizeEntry.scaled 1], st.2 ++ [v.length])

/-- The vertical sequence `v` and positions `v_ax_pos` built by
`Grid._update_locators` (lines 209-216). -/
def gridBuildV (nrows : ℕ) : List SizeEntry × List ℕ :=
  (List.range nrows).foldl gridVStep ([], [])

/-- The locator built for axis slot `i` in `Grid._update_locators`
(lines 218-222): `nx = h_ax_pos[col]`, `ny = v_ax_pos[nrows - 1 - row]`,
with `col, row = self._get_col_row(i)`. -/
def gridAxisLocator (direction : Direction) (nrows ncols : ℕ) (i : ℕ) :
    Locator :=
  let cr := get_col_row direction nrows ncols i
  { nx := ((gridBuildH ncols).2.getD cr.1 0 : ℕ),
    ny := ((gridBuildV nrows).2.getD (nrows - 1 - cr.2) 0 : ℕ) }

/-- Pointwise update of a finite map, modelling a Python array/attribute
write. -/
def updk {κ α : Type} [DecidableEq κ] (m : κ → Option α) (k : κ) (v : α) :
    κ → Option α :=
  fun j => if j = k then some v else m j

/-- The `set_axes_locator` assignments of the loop at lines 218-222 of
`Grid._update_locators`, as a map from slot index to locator. -/
def gridAssignLocators (direction : Direction) (nrows ncols ngrids : ℕ) :
    ℕ → Option Locator :=
  (List.range ngrids).foldl
    (fun m i => updk m i (gridAxisLocator direction nrows ncols i))
    (fun _ => none)

/-- Closed form of the interleaving `gridBuildH`/`gridBuildV` produce:
`n` `Scaled(1)` cells with one pad between consecutive cells. -/
def interleaved (pad : SizeEntry) : ℕ → List SizeEntry
  | 0 => []
  | 1 => [SizeEntry.scaled 1]
  | n + 2 => interleaved pad (n + 1) ++ [pad, SizeEntry.scaled 1]

/-- Closed form of the recorded cell positions: `[0, 2, ..., 2*(n-1)]`. -/
def cellPositions : ℕ → List ℕ
  | 0 => []
  | n + 1 => cellPositions n ++ [2 * n]

theorem interleaved_length (pad : SizeEntry) (n : ℕ) :
    (interleaved pad n).length = 2 * n - 1 := by
  induction n with
  | zero => simp [interleaved]
  | succ m ih =>
    match m, ih with
    | 0, _ => simp [interleaved]
    | k + 1, ih =>
      simp only [interleaved, List.length_append, List.length_cons,
        List.length_nil, ih]
      omega

theorem interleaved_ne_nil (pad : SizeEntry) (n : ℕ) (h : 0 < n) :
    interleaved pad n ≠ [] := by
  intro hnil
  have := interleaved_length pad n
  rw [hnil] at this
  simp at this
  omega

theorem cellPositions_length (n : ℕ) : (cellPositions n).length = n := by
  induction n with
  | zero => simp [cellPositions]
  | succ m ih => simp [cellPositions, ih]

theorem cellPositions_getD (n j : ℕ) (h : j < n) :
    (cellPositions n).getD j 0 = 2 * j := by
  induction n with
  | zero => omega
  | succ m ih =>
    rcases Nat.lt_succ_iff_lt_or_eq.mp h with h' | h'
    · rw [cellPositions, List.getD_append _ _ _ _ (by simp [cellPositions_length, h'])]
      exact ih h'
    · subst h'
      rw [cellPositions, List.getD_eq_getElem?_getD, List.getElem?_append_right
        (by simp [cellPositions_length])]
      simp [cellPositions_length]

theorem gridBuildH_eq (ncols : ℕ) :
    gridBuildH ncols =
      (interleaved SizeEntry.hpadRef ncols, cellPositions ncols) := by
  induction ncols with
  | zero => rfl
  | succ m ih =>
    rw [gridBuildH, List.range_succ, List.foldl_append] at *
    rw [ih]
    match m with
    | 0 => rfl
    | k + 1 =>
      simp only [List.foldl_cons, List.foldl_nil, gridHStep,
        interleaved, cellPositions]
      rw [if_pos (interleaved_ne_nil _ _ (Nat.succ_pos k))]
      simp [interleaved_length, List.append_assoc]
      omega

theorem gridBuildV_eq (nrows : ℕ) :
    gridBuildV nrows =
      (interleaved SizeEntry.vpadRef nrows, cellPositions nrows) := by
  induction nrows with
  | zero => rfl
  | succ m ih =>
    rw [gridBuildV, List.range_succ, List.foldl_append] at *
    rw [ih]
    match m with
    | 0 => rfl
    | k + 1 =>
      simp only [List.foldl_cons, List.foldl_nil, gridVStep,
        interleaved, cellPositions]
      rw [if_pos (interleaved_ne_nil _ _ (Nat.succ_pos k))]
      simp [interleaved_length, List.append_assoc]
      omega

theorem interleaved_getD (pad : SizeEntry) (n i : ℕ) (h : i < 2 * n - 1) :
    (interleaved pad n).getD i (SizeEntry.scaled 1) =
      if i % 2 = 0 then SizeEntry.scaled 1 else pad := by
  induction n with
  | zero => omega
  | succ m ih =>
    match m, ih with
    | 0, _ =>
      interval_cases i
      · rfl
    | k + 1, ih =>
      by_cases hi : i < 2 * (k + 1) - 1
      · rw [interleaved, List.getD_append _ _ _ _ (by
          rw [interleaved_length]; exact hi)]
        exact ih hi
      · have hlen : (interleaved pad (k + 1)).length = 2 * k + 1 := by
          rw [interleaved_length]; omega
        have : i = 2 * k + 1 ∨ i = 2 * k + 2 := by omega
        rcases this with h' | h'
        · subst h'
          rw [interleaved, List.getD_eq_getElem?_getD,
            List.getElem?_append_right hlen.le, hlen]
          rw [if_neg (by omega)]
          simp [show 2 * k + 1 - (2 * k + 1) = 0 from by omega]
        · subst h'
          rw [interleaved, List.getD_eq_getElem?_getD,
            List.getElem?_append_right (by rw [hlen]; omega), hlen]
          rw [if_pos (by omega)]
          simp [show 2 * k + 2 - (2 * k + 1) = 1 from by omega]

theorem foldl_updk_of_ne {κ α : Type} [DecidableEq κ] (f : ℕ → κ) (g : ℕ → α)
    (n : ℕ) (m : κ → Option α) (k : κ) (hne : ∀ i, i < n → f i ≠ k) :
    ((List.range n).foldl (fun m i => updk m (f i) (g i)) m) k = m k := by
  induction n generalizing m with
  | zero => rfl
  | succ p ih =>
    rw [List.range_succ, List.foldl_append, List.foldl_cons, List.foldl_nil]
    simp only [updk]
    rw [if_neg (fun hk => hne p (by omega) hk.symm)]
    exact ih _ (fun i hi => hne i (by omega))

theorem foldl_updk_of_hit {κ α : Type} [DecidableEq κ] (f : ℕ → κ) (g : ℕ → α)
    (n : ℕ) (m : κ → Option α) (j : ℕ) (hj : j < n)
    (hlast : ∀ i, j < i → i < n → f i ≠ f j) :
    ((List.range n).foldl (fun m i => updk m (f i) (g i)) m) (f j) =
      some (g j) := by
  induction n with
  | zero => omega
  | succ p ih =>
    rw [List.range_succ, List.foldl_append, List.foldl_cons, List.foldl_nil]
    by_cases hjp : j = p
    · subst hjp
      simp [updk]
    · have hj' : j < p := by omega
      simp only [updk]
      rw [if_neg (fun hk => hlast p hj' (by omega) hk.symm)]
      exact ih hj' (fun i h1 h2 => hlast i h1 (by omega))

theorem get_col_row_inj (direction : Direction) (nrows ncols : ℕ)
    (hr : 0 < nrows) (hc : 0 < ncols) (m n : ℕ)
    (h : get_col_row direction nrows ncols m =
      get_col_row direction nrows ncols n) : m = n := by
  cases direction with
  | row =>
    simp only [get_col_row, Prod.mk.injEq] at h
    obtain ⟨h1, h2⟩ := h
    have : ncols * (m / ncols) + m % ncols =
        ncols * (n / ncols) + n % ncols := by rw [h1, h2]
    simpa [Nat.div_add_mod] using this
  | column =>
    simp only [get_col_row, Prod.mk.injEq] at h
    obtain ⟨h1, h2⟩ := h
    have : nrows * (m / nrows) + m % nrows =
        nrows * (n / nrows) + n % nrows := by rw [h1, h2]
    simpa [Nat.div_add_mod] using this

theorem get_col_row_lt (direction : Direction) (nrows ncols : ℕ)
    (hr : 0 < nrows) (hc : 0 < ncols) (n : ℕ) (hn : n < nrows * ncols) :
    (get_col_row direction nrows ncols n).1 < ncols ∧
      (get_col_row direction nrows ncols n).2 < nrows := by
  cases direction with
  | row =>
    refine ⟨Nat.mod_lt _ hc, Nat.div_lt_of_lt_mul ?_⟩
    rw [Nat.mul_comm]
    exact hn
  | column =>
    exact ⟨Nat.div_lt_of_lt_mul hn, Nat.mod_lt _ hr⟩

/-- The fill pass of `Grid.__init__` (lines 170-179): start from an
`nrows × ncols` array of `None` and store the axes object created at fill
step `i` (identified by `i`) at `axes_array[row][col]` where
`col, row = self._get_col_row(i)`.  Keys are `(row, col)` pairs. -/
def axesArray (direction : Direction) (nrows ncols ngrids : ℕ) :
    ℕ × ℕ → Option ℕ :=
  (List.range ngrids).foldl
    (fun m i =>
      let cr := get_col_row direction nrows ncols i
      updk m (cr.2, cr.1) i)
    (fun _ => none)

/-- `self.axes_all = axes_array.ravel().tolist()` (line 180): the row-major
flattening, so flat index `j` reads `axes_array[j // ncols][j % ncols]`. -/
def axes_all (direction : Direction) (nrows ncols ngrids : ℕ) :
    List (Option ℕ) :=
  (List.range (nrows * ncols)).map
    (fun j => axesArray direction nrows ncols ngrids (j / ncols, j % ncols))

/-- `Grid.__len__` (lines 236-237): `len(self.axes_all)`. -/
def gridLen (direction : Direction) (nrows ncols ngrids : ℕ) : ℕ :=
  (axes_all direction nrows ncols ngrids).length

/-- `Grid.__getitem__` (lines 239-240): `self.axes_all[i]`. -/
def gridGetitem (direction : Direction) (nrows ncols ngrids : ℕ) (i : ℕ) :
    Option ℕ :=
  (axes_all direction nrows ncols ngrids).getD i none

theorem axesArray_lookup (direction : Direction) (nrows ncols ngrids : ℕ)
    (hr : 0 < nrows) (hc : 0 < ncols) (row col : ℕ) :
    axesArray direction nrows ncols ngrids (row, col) =
      if h : ∃ i, i < ngrids ∧
          get_col_row direction nrows ncols i = (col, row) then
        some h.choose
      else none := by
  rw [axesArray]
  split
  · next h =>
    obtain ⟨hlt, heq⟩ := h.choose_spec
    have hkey : ((get_col_row direction nrows ncols h.choose).2,
        (get_col_row direction nrows ncols h.choose).1) = (row, col) := by
      rw [heq]
    rw [← hkey]
    exact foldl_updk_of_hit _ _ _ _ _ hlt
      (fun i h1 h2 hfi => by
        have : i = h.choose :=
          get_col_row_inj direction nrows ncols hr hc i h.choose
            (by
              have := congrArg (fun p : ℕ × ℕ => (p.2, p.1)) hfi
              simpa using this)
        omega)
  · next h =>
    push_neg at h
    refine foldl_updk_of_ne _ _ _ _ _ (fun i hi hkey => h i hi ?_)
    have h1 := congrArg Prod.snd hkey
    have h2 := congrArg Prod.fst hkey
    exact Prod.ext_iff.mpr ⟨h1, h2⟩

/-- The configuration an `ImageGrid` carries into `_update_locators`:
grid shape and fill direction, `self._colorbar_mode` (`none` is Python
`None`), `self._colorbar_location`, and the `self._colorbar_size` /
`self._colorbar_pad` arguments later passed to `Size.from_any`. -/
structure ImageParams where
  direction : Direction
  nrows : ℕ
  ncols : ℕ
  ngrids : ℕ
  mode : Option CbarMode
  loc : CbarLocation
  cbSize : PadSpec
  cbPad : PadSpec

/-- Whether `axes_array[row][col]` holds an axes object (the `if ax:` tests
of `ImageGrid._update_locators`). -/
def cellFilled (direction : Direction) (nrows ncols ngrids row col : ℕ) :
    Bool :=
  (axesArray direction nrows ncols ngrids (row, col)).isSome

/-- The `sz` of one horizontal iteration (lines 518-522):
`Size.AxesX(ax)` of `axes_row[0][col]` if that slot is filled, otherwise of
`self.axes_all[0]` (which is `axes_array[0][0]`). -/
def hCellSz (P : ImageParams) (col : ℕ) : SizeRef :=
  if cellFilled P.direction P.nrows P.ncols P.ngrids 0 col then
    SizeRef.axesX 0 col
  else
    SizeRef.axesX 0 0

/-- The `sz` of one vertical iteration (lines 549-553): the loop runs over
`axes_column[0][::-1]`, so iteration `row` looks at
`axes_array[nrows - 1 - row][0]`. -/
def vCellSz (P : ImageParams) (row : ℕ) : SizeRef :=
  if cellFilled P.direction P.nrows P.ncols P.ngrids (P.nrows - 1 - row) 0 then
    SizeRef.axesY (P.nrows - 1 - row) 0
  else
    SizeRef.axesY 0 0

/-- Accumulator of the sequence-building loops of
`ImageGrid._update_locators`: the sequence under construction and the
recorded `*_ax_pos` / `*_cb_pos` position lists. -/
structure HVBuild where
  seq : List SizeEntry
  axPos : List ℕ
  cbPos : List ℕ
  deriving DecidableEq, Repr

/-- One iteration of the horizontal loop of `ImageGrid._update_locators`
(lines 514-541): shared pad between cells, an optional colorbar
size-then-pad block before the cell (`each`, or `edge` at column 0, with
location `left`), the axis cell itself, and an optional pad-then-size block
after the cell (`each`, or `edge` at the last column, with location
`right`). -/
def imageHStep (P : ImageParams) (st : HVBuild) (col : ℕ) : HVBuild :=
  let h := if st.seq ≠ [] then st.seq ++ [SizeEntry.hpadRef] else st.seq
  let sz := hCellSz P col
  let pre :=
    (P.mode = some .each ∨ (P.mode = some .edge ∧ col = 0)) ∧ P.loc = .left
  let (h, cbPos) :=
    if pre then
      (h ++ [SizeEntry.fromAny P.cbSize sz, SizeEntry.fromAny P.cbPad sz],
        st.cbPos ++ [h.length])
    else (h, st.cbPos)
  let axPos := st.axPos ++ [h.length]
  let h := h ++ [SizeEntry.ref sz]
  let post :=
    (P.mode = some .each ∨ (P.mode = some .edge ∧ col = P.ncols - 1)) ∧
      P.loc = .right
  if post then
    ⟨h ++ [SizeEntry.fromAny P.cbPad sz, SizeEntry.fromAny P.cbSize sz],
      axPos, cbPos ++ [(h ++ [SizeEntry.fromAny P.cbPad sz]).length]⟩
  else
    ⟨h, axPos, cbPos⟩

/-- One iteration of the vertical loop of `ImageGrid._update_locators`
(lines 545-571), symmetric to `imageHStep` with locations `bottom`/`top`. -/
def imageVStep (P : ImageParams) (st : HVBuild) (row : ℕ) : HVBuild :=
  let v := if st.seq ≠ [] then st.seq ++ [SizeEntry.vpadRef] else st.seq
  let sz := vCellSz P row
  let pre :=
    (P.mode = some .each ∨ (P.mode = some .edge ∧ row = 0)) ∧ P.loc = .bottom
  let (v, cbPos) :=
    if pre then
      (v ++ [SizeEntry.fromAny P.cbSize sz, SizeEntry.fromAny P.cbPad sz],
        st.cbPos ++ [v.length])
    else (v, st.cbPos)
  let axPos := st.axPos ++ [v.length]
  let v := v ++ [SizeEntry.ref sz]
  let post :=
    (P.mode = some .each ∨ (P.mode = some .edge ∧ row = P.nrows - 1)) ∧
      P.loc = .top
  if post then
    ⟨v ++ [SizeEntry.fromAny P.cbPad sz, SizeEntry.fromAny P.cbSize sz],
      axPos, cbPos ++ [(v ++ [SizeEntry.fromAny P.cbPad sz]).length]⟩
  else
    ⟨v, axPos, cbPos⟩

/-- The pre-loop block of `ImageGrid._update_locators` (lines 497-503):
with `cbar_mode == "single"` and location `left`, `h` starts with the
colorbar size and pad, both resolved against
`Size.Fraction(nrows, Size.AxesX(self.axes_llc))`. -/
def imageHInit (P : ImageParams) : HVBuild :=
  if P.mode = some .single ∧ P.loc = .left then
    ⟨[SizeEntry.fromAny P.cbSize (SizeRef.fracX P.nrows),
      SizeEntry.fromAny P.cbPad (SizeRef.fracX P.nrows)], [], []⟩
  else ⟨[], [], []⟩

/-- The pre-loop block for the vertical sequence (lines 504-508):
`cbar_mode == "single"` with location `bottom`. -/
def imageVInit (P : ImageParams) : HVBuild :=
  if P.mode = some .single ∧ P.loc = .bottom then
    ⟨[SizeEntry.fromAny P.cbSize (SizeRef.fracY P.ncols),
      SizeEntry.fromAny P.cbPad (SizeRef.fracY P.ncols)], [], []⟩
  else ⟨[], [], []⟩

/-- The state of `h`, `h_ax_pos`, `h_cb_pos` right after the horizontal
loop of `ImageGrid._update_locators` (the state the locator loop at lines
573-601 reads). -/
def imageBuildH (P : ImageParams) : HVBuild :=
  (List.range P.ncols).foldl (imageHStep P) (imageHInit P)

/-- The state of `v`, `v_ax_pos`, `v_cb_pos` after the vertical loop. -/
def imageBuildV (P : ImageParams) : HVBuild :=
  (List.range P.nrows).foldl (imageVStep P) (imageVInit P)

/-- The final horizontal sequence handed to `self._divider.set_horizontal`
(line 637): the loop result plus, for `cbar_mode == "single"` with location
`right`, the appended colorbar pad and size (lines 603-607). -/
def imageH (P : ImageParams) : HVBuild :=
  let b := imageBuildH P
  if P.mode = some .single ∧ P.loc = .right then
    { b with
      seq := b.seq ++
        [SizeEntry.fromAny P.cbPad (SizeRef.fracX P.nrows),
          SizeEntry.fromAny P.cbSize (SizeRef.fracX P.nrows)] }
  else b

/-- The final vertical sequence handed to `self._divider.set_vertical`
(line 638), with the `single`/`top` appendix of lines 609-612. -/
def imageV (P : ImageParams) : HVBuild :=
  let b := imageBuildV P
  if P.mode = some .single ∧ P.loc = .top then
    { b with
      seq := b.seq ++
        [SizeEntry.fromAny P.cbPad (SizeRef.fracY P.ncols),
          SizeEntry.fromAny P.cbSize (SizeRef.fracY P.ncols)] }
  else b

/-- The locator built for axis slot `i` at lines 573-577:
`nx = h_ax_pos[col]`, `ny = v_ax_pos[nrows - 1 - row]`. -/
def imageAxisLocator (P : ImageParams) (i : ℕ) : Locator :=
  let cr := get_col_row P.direction P.nrows P.ncols i
  { nx := ((imageBuildH P).axPos.getD cr.1 0 : ℕ),
    ny := ((imageBuildV P).axPos.getD (P.nrows - 1 - cr.2) 0 : ℕ) }

/-- The `set_axes_locator` assignments of lines 573-577 as a map from slot
index to locator (the colorbar assignments of the same loop are modelled
separately in `imageCbarLocators`; the two touch disjoint objects). -/
def imageAxisLocators (P : ImageParams) : ℕ → Option Locator :=
  (List.range P.ngrids).foldl
    (fun m i => updk m i (imageAxisLocator P i))
    (fun _ => none)

/-- The colorbar locator of slot `i` under `cbar_mode == "each"`
(lines 579-586): the colorbar cell position replaces the axis cell
position on the colorbar side. -/
def imageEachCbarLocator (P : ImageParams) (i : ℕ) : Locator :=
  let cr := get_col_row P.direction P.nrows P.ncols i
  match P.loc with
  | .right | .left =>
    { nx := ((imageBuildH P).cbPos.getD cr.1 0 : ℕ),
      ny := ((imageBuildV P).axPos.getD (P.nrows - 1 - cr.2) 0 : ℕ) }
  | .top | .bottom =>
    { nx := ((imageBuildH P).axPos.getD cr.1 0 : ℕ),
      ny := ((imageBuildV P).cbPos.getD (P.nrows - 1 - cr.2) 0 : ℕ) }

/-- One iteration of the colorbar part of the locator loop
(lines 579-601): `each` assigns `cbar_axes[i]`; `edge` assigns
`cbar_axes[row]` (resp. `cbar_axes[col]`) when slot `i` lies on the edge
carrying the colorbars; other modes leave the map alone. -/
def imageCbarLocStep (P : ImageParams) (m : ℕ → Option Locator) (i : ℕ) :
    ℕ → Option Locator :=
  let cr := get_col_row P.direction P.nrows P.ncols i
  match P.mode with
  | some .each => updk m i (imageEachCbarLocator P i)
  | some .edge =>
    if (P.loc = .left ∧ cr.1 = 0) ∨
        (P.loc = .right ∧ cr.1 = P.ncols - 1) then
      updk m cr.2
        { nx := ((imageBuildH P).cbPos.getD 0 0 : ℕ),
          ny := ((imageBuildV P).axPos.getD (P.nrows - 1 - cr.2) 0 : ℕ) }
    else if (P.loc = .bottom ∧ cr.2 = P.nrows - 1) ∨
        (P.loc = .top ∧ cr.2 = 0) then
      updk m cr.1
        { nx := ((imageBuildH P).axPos.getD cr.1 0 : ℕ),
          ny := ((imageBuildV P).cbPos.getD 0 0 : ℕ) }
    else m
  | _ => m

/-- All `set_axes_locator` calls on `self.cbar_axes[...]`, in program
order: the pre-loop `single`/`left`-`bottom` assignment (lines 503-511),
the per-slot loop (lines 579-601), and the post-loop `single`/`right`-`top`
assignment (lines 603-618). -/
def imageCbarLocators (P : ImageParams) : ℕ → Option Locator :=
  let m0 : ℕ → Option Locator := fun _ => none
  let m0 :=
    if P.mode = some .single ∧ P.loc = .left then
      updk m0 0 { nx := 0, ny := 0, ny1 := some (-1) }
    else if P.mode = some .single ∧ P.loc = .bottom then
      updk m0 0 { nx := 0, nx1 := some (-1), ny := 0 }
    else m0
  let m1 := (List.range P.ngrids).foldl (imageCbarLocStep P) m0
  if P.mode = some .single ∧ P.loc = .right then
    updk m1 0 { nx := -2, ny := 0, ny1 := some (-1) }
  else if P.mode = some .single ∧ P.loc = .top then
    updk m1 0 { nx := 0, nx1 := some (-1), ny := -2 }
  else m1

/-- Pointwise update of a total map (a `set_visible` write). -/
def updf {α : Type} (m : ℕ → α) (k : ℕ) (v : α) : ℕ → α :=
  fun j => if j = k then v else m j

/-- `for i in range(n): ...set_visible(v)`. -/
def setAllVis (v : Bool) (n : ℕ) (m : ℕ → Bool) : ℕ → Bool :=
  (List.range n).foldl (fun m i => updf m i v) m

/-- `count` of lines 622-626: rows carry the edge colorbars for locations
`right`/`left`, columns for `top`/`bottom`. -/
def edgeCbarCount (P : ImageParams) : ℕ :=
  if P.loc = .right ∨ P.loc = .left then P.nrows else P.ncols

/-- The `set_visible` calls on `self.cbar_axes[...]`, in program order:
axes start visible, the pre-loop block (lines 509-512) hides all and shows
index 0 for `single`/`left`-`bottom`, and the closing block
(lines 614-635) does the same for `single`/`right`-`top`, shows all for
`each`, shows the first `count` and hides the rest for `edge`, and hides
all when no colorbar mode is set.  (For `edge` the code indexes
`cbar_axes[i]` for `i < count`; as in the source, `count ≤ ngrids` is the
caller's obligation.) -/
def imageCbarVisMap (P : ImageParams) : ℕ → Bool :=
  let m0 : ℕ → Bool := fun _ => true
  let m1 :=
    if P.mode = some .single ∧ (P.loc = .left ∨ P.loc = .bottom) then
      updf (setAllVis false P.ngrids m0) 0 true
    else m0
  match P.mode with
  | some .single =>
    if P.loc = .right ∨ P.loc = .top then
      updf (setAllVis false P.ngrids m1) 0 true
    else m1
  | some .each => setAllVis true P.ngrids m1
  | some .edge =>
    let c := edgeCbarCount P
    (List.range' c (P.ngrids - c)).foldl (fun m j => updf m j false)
      (setAllVis true c m1)
  | none => setAllVis false P.ngrids m1

/-- The mutable state of the two shared `Size.Fixed` padding objects
(`self._horiz_pad_size.fixed_size` and `self._vert_pad_size.fixed_size`). -/
structure PadState where
  hpad : ℚ
  vpad : ℚ
  deriving DecidableEq, Repr

/-- `Grid._init_axes_pad` (lines 193-196): `np.broadcast_to(axes_pad, 2)`
turns a scalar into both components; then the two `Size.Fixed` objects are
created. -/
def init_axes_pad : ℚ ⊕ (ℚ × ℚ) → PadState
  | .inl s => ⟨s, s⟩
  | .inr (h, v) => ⟨h, v⟩

/-- `Grid.set_axes_pad` (lines 248-260): assigns `fixed_size` of the two
shared `Size.Fixed` objects in place, without touching the sequences. -/
def set_axes_pad (_st : PadState) (p : ℚ × ℚ) : PadState :=
  ⟨p.1, p.2⟩

/-- `Grid.get_axes_pad` (lines 262-272): reads the two `fixed_size`s. -/
def get_axes_pad (st : PadState) : ℚ × ℚ :=
  (st.hpad, st.vpad)

/-- The current `fixed_size` a `Divider` reads from a sequence entry that
is a `Size.Fixed` object: the shared pad entries read the live `PadState`;
`Size.from_any` of a number is a fresh `Size.Fixed` frozen at creation
time; other entries are not `Size.Fixed`. -/
def entryFixedSize (st : PadState) : SizeEntry → Option ℚ
  | .hpadRef => some st.hpad
  | .vpadRef => some st.vpad
  | .fromAny (.num v) _ => some v
  | _ => none

/-- Lines 418-425 of `ImageGrid.__init__`: with `cbar_pad=None` the
colorbar pad becomes the float `fixed_size` currently stored in the shared
pad object for the relevant axis — a numeric snapshot, not the shared
object itself. -/
def colorbar_pad (st : PadState) (loc : CbarLocation) (cbar_pad : Option ℚ) :
    ℚ :=
  match cbar_pad with
  | none => if loc = .left ∨ loc = .right then st.hpad else st.vpad
  | some v => v

/-- Visibility of a cell's bottom and left tick labels (and axis labels),
as toggled by `_tick_only`. -/
structure TickVis where
  bottomTicks : Bool
  leftTicks : Bool
  deriving DecidableEq, Repr

/-- `_tick_only(ax, bottom_on, left_on)` (lines 14-18): sets the bottom
axis artist's ticklabel/label visibility to `not bottom_on` and the left
one's to `not left_on` — note the inversion, `bottom_on=True` switches the
bottom labels OFF. -/
def tick_only (bottom_on left_on : Bool) : TickVis :=
  ⟨!bottom_on, !left_on⟩

/-- Tick-visibility state of every cell, addressed as `(row, col)`. -/
def Cells : Type := ℕ → ℕ → TickVis

/-- One `_tick_only(ax, ...)` call on the cell at `(row, col)`. -/
def setCell (cs : Cells) (row col : ℕ) (t : TickVis) : Cells :=
  fun r c => if r = row ∧ c = col then t else cs r c

/-- `Grid.set_label_mode("L")` (lines 299-314) on a fully filled grid:
`axes_column[col]` lists the cells of column `col` by row, so `col[:-1]`
are rows `0 .. nrows-2` and `col[-1]` is row `nrows-1`.  Column 0 first
(its non-bottom rows, then its bottom cell), then every later column. -/
def setLabelModeL (nrows ncols : ℕ) (cs : Cells) : Cells :=
  let cs := (List.range (nrows - 1)).foldl
    (fun cs r => setCell cs r 0 (tick_only true false)) cs
  let cs := setCell cs (nrows - 1) 0 (tick_only false false)
  (List.range (ncols - 1)).foldl
    (fun cs c1 =>
      let cs := (List.range (nrows - 1)).foldl
        (fun cs r => setCell cs r (c1 + 1) (tick_only true true)) cs
      setCell cs (nrows - 1) (c1 + 1) (tick_only false true))
    cs

/-- `Grid.set_label_mode("1")` (lines 316-321) on a fully filled grid:
every cell of `axes_all` (row-major) gets `_tick_only(ax, True, True)`,
then the lower-left cell `axes_llc = axes_column[0][-1]` (row `nrows-1`,
column 0) gets `_tick_only(ax, False, False)`. -/
def setLabelMode1 (nrows ncols : ℕ) (cs : Cells) : Cells :=
  let cs := (List.range (nrows * ncols)).foldl
    (fun cs j => setCell cs (j / ncols) (j % ncols) (tick_only true true)) cs
  setCell cs (nrows - 1) 0 (tick_only false false)

theorem foldl_updk_id_lookup {α : Type} (g : ℕ → α) (n j : ℕ)
    (m : ℕ → Option α) :
    ((List.range n).foldl (fun m i => updk m i (g i)) m) j =
      if j < n then some (g j) else m j := by
  induction n generalizing m with
  | zero => simp
  | succ p ih =>
    rw [List.range_succ, List.foldl_append, List.foldl_cons, List.foldl_nil]
    simp only [updk]
    by_cases hj : j = p
    · subst hj
      simp
    · rw [if_neg hj, ih]
      by_cases hlt : j < p
      · rw [if_pos hlt, if_pos (by omega)]
      · rw [if_neg hlt, if_neg (by omega)]

theorem setAllVis_lookup (v : Bool) (n : ℕ) (m : ℕ → Bool) (j : ℕ) :
    setAllVis v n m j = if j < n then v else m j := by
  induction n generalizing m with
  | zero => simp [setAllVis]
  | succ p ih =>
    rw [setAllVis, List.range_succ, List.foldl_append, List.foldl_cons,
      List.foldl_nil]
    show updf ((List.range p).foldl (fun m i => updf m i v) m) p v j = _
    simp only [updf]
    by_cases hj : j = p
    · subst hj
      simp
    · rw [if_neg hj]
      have := ih m
      rw [setAllVis] at this
      rw [this]
      by_cases hlt : j < p
      · rw [if_pos hlt, if_pos (by omega)]
      · rw [if_neg hlt, if_neg (by omega)]

/-- Closed form of the horizontal/vertical loops when no colorbar branch
fires: `n` axis cells with one shared pad between consecutive cells. -/
def interleavedCells (pad : SizeEntry) (cell : ℕ → SizeEntry) :
    ℕ → List SizeEntry
  | 0 => []
  | 1 => [cell 0]
  | n + 2 => interleavedCells pad cell (n + 1) ++ [pad, cell (n + 1)]

theorem interleavedCells_length (pad : SizeEntry) (cell : ℕ → SizeEntry)
    (n : ℕ) : (interleavedCells pad cell n).length = 2 * n - 1 := by
  induction n with
  | zero => simp [interleavedCells]
  | succ m ih =>
    match m, ih with
    | 0, _ => simp [interleavedCells]
    | k + 1, ih =>
      simp only [interleavedCells, List.length_append, List.length_cons,
        List.length_nil, ih]
      omega

theorem interleavedCells_ne_nil (pad : SizeEntry) (cell : ℕ → SizeEntry)
    (n : ℕ) (h : 0 < n) : interleavedCells pad cell n ≠ [] := by
  intro hnil
  have := interleavedCells_length pad cell n
  rw [hnil] at this
  simp at this
  omega

theorem interleavedCells_getLast (pad : SizeEntry) (cell : ℕ → SizeEntry)
    (n : ℕ) (h : 0 < n) :
    (interleavedCells pad cell n).getLast? = some (cell (n - 1)) := by
  match n, h with
  | 1, _ => rfl
  | k + 2, _ =>
    rw [interleavedCells, show [pad, cell (k + 1)] = [pad] ++ [cell (k + 1)]
      from rfl, ← List.append_assoc, List.getLast?_concat]
    simp

theorem interleavedCells_mem (pad : SizeEntry) (cell : ℕ → SizeEntry)
    (n : ℕ) (e : SizeEntry) (he : e ∈ interleavedCells pad cell n) :
    e = pad ∨ ∃ c, c < n ∧ e = cell c := by
  induction n with
  | zero => simp [interleavedCells] at he
  | succ m ih =>
    match m, ih with
    | 0, _ =>
      simp only [interleavedCells, List.mem_singleton] at he
      exact Or.inr ⟨0, Nat.one_pos, he⟩
    | k + 1, ih =>
      rw [interleavedCells, List.mem_append] at he
      rcases he with he | he
      · rcases ih he with h | ⟨c, hc, hce⟩
        · exact Or.inl h
        · exact Or.inr ⟨c, by omega, hce⟩
      · simp only [List.mem_cons, List.not_mem_nil, or_false] at he
        rcases he with he | he
        · exact Or.inl he
        · exact Or.inr ⟨k + 1, by omega, he⟩

theorem imageBuildH_single_right (P : ImageParams)
    (h1 : P.mode = some CbarMode.single) (h2 : P.loc = CbarLocation.right) :
    imageBuildH P =
      ⟨interleavedCells SizeEntry.hpadRef
          (fun c => SizeEntry.ref (hCellSz P c)) P.ncols,
        cellPositions P.ncols, []⟩ := by
  have key : ∀ n, (List.range n).foldl (imageHStep P) ⟨[], [], []⟩ =
      ⟨interleavedCells SizeEntry.hpadRef
          (fun c => SizeEntry.ref (hCellSz P c)) n,
        cellPositions n, []⟩ := by
    intro n
    induction n with
    | zero => rfl
    | succ p ih =>
      rw [List.range_succ, List.foldl_append, List.foldl_cons,
        List.foldl_nil, ih]
      match p with
      | 0 =>
        simp [imageHStep, h1, h2, interleavedCells, cellPositions]
      | k + 1 =>
        simp only [imageHStep, h1, h2]
        rw [if_pos (interleavedCells_ne_nil _ _ _ (Nat.succ_pos k))]
        simp only [Option.some.injEq, reduceCtorEq, false_and, and_false,
          or_self, if_false, ite_false]
        simp [interleavedCells, cellPositions, interleavedCells_length,
          List.append_assoc]
        omega
  rw [imageBuildH, imageHInit, if_neg (by simp [h2])]
  exact key P.ncols

/-- C1: for every valid configuration (`0 < ngrids ≤ nrows*ncols`) the
slot-index mapping `_get_col_row` is injective on `0..ngrids-1` — the
traversal lists `ngrids` distinct `(col, row)` pairs, all inside the grid —
and `direction="row"` on shape `(nrows, ncols)` is the transpose of
`direction="column"` on shape `(ncols, nrows)`: index `i` maps to `(r, c)`
under "row" iff it maps to `(c, r)` under "column" with the swapped
shape. -/
theorem get_col_row_valid_config (direction : Direction)
    (nrows ncols ngrids : ℕ) (hg : 0 < ngrids)
    (hle : ngrids ≤ nrows * ncols) :
    (∀ i j, i < ngrids → j < ngrids →
      get_col_row direction nrows ncols i =
        get_col_row direction nrows ncols j → i = j) ∧
    ((List.range ngrids).map (get_col_row direction nrows ncols)).Nodup ∧
    ((List.range ngrids).map (get_col_row direction nrows ncols)).length =
      ngrids ∧
    (∀ i, i < ngrids → (get_col_row direction nrows ncols i).1 < ncols ∧
      (get_col_row direction nrows ncols i).2 < nrows) ∧
    (∀ i r c, get_col_row Direction.row nrows ncols i = (c, r) ↔
      get_col_row Direction.column ncols nrows i = (r, c)) := by
  have hr : 0 < nrows := by
    rcases Nat.eq_zero_or_pos nrows with h | h
    · subst h
      simp at hle
      omega
    · exact h
  have hc : 0 < ncols := by
    rcases Nat.eq_zero_or_pos ncols with h | h
    · subst h
      simp at hle
      omega
    · exact h
  refine ⟨fun i j _ _ h => get_col_row_inj direction nrows ncols hr hc i j h,
    ?_, by simp, fun i hi =>
      get_col_row_lt direction nrows ncols hr hc i (by omega), ?_⟩
  · refine (List.nodup_range ngrids).map_on ?_
    intro x hx y hy hxy
    exact get_col_row_inj direction nrows ncols hr hc x y hxy
  · intro i r c
    simp only [get_col_row, Prod.mk.injEq]
    constructor
    · rintro ⟨hcol, hrow⟩
      exact ⟨hrow, hcol⟩
    · rintro ⟨hrow, hcol⟩
      exact ⟨hcol, hrow⟩

theorem get_col_row_valid_config_witness :
    (0 < 5 ∧ 5 ≤ 2 * 3) ∧
      ((∀ i j, i < 5 → j < 5 →
        get_col_row Direction.row 2 3 i = get_col_row Direction.row 2 3 j →
          i = j) ∧
      ((List.range 5).map (get_col_row Direction.row 2 3)).Nodup ∧
      ((List.range 5).map (get_col_row Direction.row 2 3)).length = 5 ∧
      (∀ i, i < 5 → (get_col_row Direction.row 2 3 i).1 < 3 ∧
        (get_col_row Direction.row 2 3 i).2 < 2) ∧
      (∀ i r c, get_col_row Direction.row 2 3 i = (c, r) ↔
        get_col_row Direction.column 3 2 i = (r, c))) :=
  ⟨⟨by decide, by decide⟩,
    get_col_row_valid_config Direction.row 2 3 5 (by decide) (by decide)⟩

theorem checkNgrids_error_iff (nrows ncols : ℕ) (g : Option ℕ) :
    (∃ e, checkNgrids nrows ncols g = .error e) ↔
      ∃ g0, g = some g0 ∧ ¬(0 < g0 ∧ g0 ≤ nrows * ncols) := by
  cases g with
  | none => simp [checkNgrids]
  | some g0 =>
    by_cases h : 0 < g0 ∧ g0 ≤ nrows * ncols
    · simp [checkNgrids, h]
    · simp only [checkNgrids, if_neg h]
      simp only [reduceCtorEq, exists_false, Option.some.injEq]
      constructor
      · intro _
        exact ⟨g0, rfl, h⟩
      · intro _
        exact ⟨ConfigError.badNgrids, rfl⟩

theorem checkDirection_error_iff (d : DirectionArg) :
    (∃ e, checkDirection d = .error e) ↔ d = DirectionArg.other := by
  cases d <;> simp [checkDirection]

theorem checkRect_error_iff (r : RectArg) :
    (∃ e, checkRect r = .error e) ↔
      ∃ l, r = RectArg.seq l ∧ l ≠ 3 ∧ l ≠ 4 := by
  cases r with
  | scalar => simp [checkRect]
  | seq l =>
    by_cases h3 : l = 3 <;> by_cases h4 : l = 4 <;>
      simp [checkRect, h3, h4]

theorem checkCbarLocation_error_iff (loc : CbarLocationArg) :
    (∃ e, checkCbarLocation loc = .error e) ↔
      loc = CbarLocationArg.other := by
  cases loc <;> simp [checkCbarLocation]

theorem validateGrid_error_iff (nrows ncols : ℕ) (ngrids : Option ℕ)
    (d : DirectionArg) (rect : RectArg) :
    (∃ e, validateGrid nrows ncols ngrids d rect = .error e) ↔
      ((∃ e, checkNgrids nrows ncols ngrids = .error e) ∨
        (∃ e, checkDirection d = .error e) ∨
        (∃ e, checkRect rect = .error e)) := by
  rcases hN : checkNgrids nrows ncols ngrids with e | g0
  · simp [validateGrid, hN, bind, Except.bind]
  · rcases hD : checkDirection d with e | d0
    · simp [validateGrid, hN, hD, bind, Except.bind]
    · rcases hR : checkRect rect with e | u
      · simp [validateGrid, hN, hD, hR, bind, Except.bind]
      · simp [validateGrid, hN, hD, hR, bind, Except.bind, pure,
          Except.pure]

theorem validateImageGrid_error_iff (nrows ncols : ℕ) (ngrids : Option ℕ)
    (d : DirectionArg) (rect : RectArg) (loc : CbarLocationArg) :
    (∃ e, validateImageGrid nrows ncols ngrids d rect loc = .error e) ↔
      ((∃ e, checkNgrids nrows ncols ngrids = .error e) ∨
        (∃ e, checkCbarLocation loc = .error e) ∨
        (∃ e, checkDirection d = .error e) ∨
        (∃ e, checkRect rect = .error e)) := by
  rcases hN : checkNgrids nrows ncols ngrids with e | g0
  · simp [validateImageGrid, hN, bind, Except.bind]
  · rcases hL : checkCbarLocation loc with e | l0
    · simp [validateImageGrid, hN, hL, bind, Except.bind]
    · rcases hD : checkDirection d with e | d0
      · simp [validateImageGrid, hN, hL, hD, bind, Except.bind]
      · rcases hR : checkRect rect with e | u
        · simp [validateImageGrid, hN, hL, hD, hR, bind, Except.bind]
        · simp [validateImageGrid, hN, hL, hD, hR, bind, Except.bind,
            pure, Except.pure]

/-- C2: construction of `Grid` and `ImageGrid` fails with a configuration
error — returning no object at all — exactly when `ngrids` is explicitly
given outside `(0, nrows*ncols]`, or `direction` is neither "row" nor
"column", or `rect` is a sequence of length other than 3 or 4, or (for
`ImageGrid`, modelled from the spec) `cbar_location` is not one of
left/right/top/bottom. -/
theorem construction_validation (nrows ncols : ℕ) (ngrids : Option ℕ)
    (d : DirectionArg) (rect : RectArg) (loc : CbarLocationArg) :
    ((∃ e, validateGrid nrows ncols ngrids d rect = .error e) ↔
      ((∃ g, ngrids = some g ∧ ¬(0 < g ∧ g ≤ nrows * ncols)) ∨
        d = DirectionArg.other ∨
        (∃ l, rect = RectArg.seq l ∧ l ≠ 3 ∧ l ≠ 4))) ∧
    ((∃ e, validateImageGrid nrows ncols ngrids d rect loc = .error e) ↔
      ((∃ g, ngrids = some g ∧ ¬(0 < g ∧ g ≤ nrows * ncols)) ∨
        d = DirectionArg.other ∨
        (∃ l, rect = RectArg.seq l ∧ l ≠ 3 ∧ l ≠ 4) ∨
        loc = CbarLocationArg.other)) := by
  constructor
  · rw [validateGrid_error_iff, checkNgrids_error_iff,
      checkDirection_error_iff, checkRect_error_iff]
  · rw [validateImageGrid_error_iff, checkNgrids_error_iff,
      checkDirection_error_iff, checkRect_error_iff,
      checkCbarLocation_error_iff]
    exact or_congr_right or_rotate

/-- C3: the horizontal sequence built at construction has `2*ncols - 1`
entries — a `Scaled(1)` cell at every even index and the shared `Fixed`
pad at every odd index, so no leading or trailing pad — and symmetrically
the vertical sequence with `nrows`. -/
theorem size_sequence_interleaving (nrows ncols : ℕ) :
    ((gridBuildH ncols).1.length = 2 * ncols - 1) ∧
    (∀ i, i < 2 * ncols - 1 →
      (gridBuildH ncols).1.getD i (SizeEntry.scaled 1) =
        if i % 2 = 0 then SizeEntry.scaled 1 else SizeEntry.hpadRef) ∧
    ((gridBuildV nrows).1.length = 2 * nrows - 1) ∧
    (∀ i, i < 2 * nrows - 1 →
      (gridBuildV nrows).1.getD i (SizeEntry.scaled 1) =
        if i % 2 = 0 then SizeEntry.scaled 1 else SizeEntry.vpadRef) := by
  rw [gridBuildH_eq, gridBuildV_eq]
  exact ⟨by simp [interleaved_length],
    fun i hi => interleaved_getD _ _ i hi,
    by simp [interleaved_length],
    fun i hi => interleaved_getD _ _ i hi⟩

theorem size_sequence_interleaving_witness :
    (4 < 2 * 3 - 1 ∧ 1 < 2 * 2 - 1) ∧
      (gridBuildH 3).1.getD 4 (SizeEntry.scaled 1) =
        (if 4 % 2 = 0 then SizeEntry.scaled 1 else SizeEntry.hpadRef) ∧
      (gridBuildV 2).1.getD 1 (SizeEntry.scaled 1) =
        (if 1 % 2 = 0 then SizeEntry.scaled 1 else SizeEntry.vpadRef) :=
  ⟨⟨by decide, by decide⟩,
    (size_sequence_interleaving 2 3).2.1 4 (by decide),
    (size_sequence_interleaving 2 3).2.2.2 1 (by decide)⟩

theorem foldl_const {α β : Type} (m : α) (l : List β) :
    l.foldl (fun m _ => m) m = m := by
  induction l with
  | nil => rfl
  | cons x xs ih => simpa using ih

/-- C4: the locator of slot `i` with logical position `(row, col)` uses
the horizontal cell position of column `col` and the vertical cell
position of row `nrows - 1 - row` (in the plain `Grid` these are `2*col`
and `2*(nrows-1-row)`), so a visually higher row (smaller logical `row`)
gets a strictly larger `ny` on the Divider's bottom-up vertical axis;
`ImageGrid` applies the same inverted index to its axis slots, and in
`each` mode the colorbar locator of a slot reuses the very same inverted
vertical index `ny` (locations left/right) resp. the same `nx`
(top/bottom). -/
theorem locator_row_inversion (P : ImageParams)
    (hg : 0 < P.ngrids) (hle : P.ngrids ≤ P.nrows * P.ncols) :
    (∀ i, i < P.ngrids →
      gridAssignLocators P.direction P.nrows P.ncols P.ngrids i =
        some (gridAxisLocator P.direction P.nrows P.ncols i)) ∧
    (∀ i, i < P.ngrids →
      (gridAxisLocator P.direction P.nrows P.ncols i).nx =
        2 * (get_col_row P.direction P.nrows P.ncols i).1 ∧
      (gridAxisLocator P.direction P.nrows P.ncols i).ny =
        2 * (P.nrows - 1 - (get_col_row P.direction P.nrows P.ncols i).2)) ∧
    (∀ i j, i < P.ngrids → j < P.ngrids →
      (get_col_row P.direction P.nrows P.ncols i).2 <
        (get_col_row P.direction P.nrows P.ncols j).2 →
      (gridAxisLocator P.direction P.nrows P.ncols j).ny <
        (gridAxisLocator P.direction P.nrows P.ncols i).ny) ∧
    (∀ i, i < P.ngrids →
      imageAxisLocators P i = some (imageAxisLocator P i) ∧
      (imageAxisLocator P i).ny =
        ((imageBuildV P).axPos.getD
          (P.nrows - 1 - (get_col_row P.direction P.nrows P.ncols i).2)
          0 : ℕ)) ∧
    (P.mode = some CbarMode.each → ∀ i, i < P.ngrids →
      imageCbarLocators P i = some (imageEachCbarLocator P i) ∧
      ((P.loc = CbarLocation.left ∨ P.loc = CbarLocation.right) →
        (imageEachCbarLocator P i).ny = (imageAxisLocator P i).ny) ∧
      ((P.loc = CbarLocation.top ∨ P.loc = CbarLocation.bottom) →
        (imageEachCbarLocator P i).nx = (imageAxisLocator P i).nx)) := by
  have hr : 0 < P.nrows := by
    rcases Nat.eq_zero_or_pos P.nrows with h | h
    · rw [h] at hle
      simp at hle
      omega
    · exact h
  have hc : 0 < P.ncols := by
    rcases Nat.eq_zero_or_pos P.ncols with h | h
    · rw [h] at hle
      simp at hle
      omega
    · exact h
  have hform : ∀ i, i < P.ngrids →
      (gridAxisLocator P.direction P.nrows P.ncols i).nx =
        2 * (get_col_row P.direction P.nrows P.ncols i).1 ∧
      (gridAxisLocator P.direction P.nrows P.ncols i).ny =
        2 * (P.nrows - 1 - (get_col_row P.direction P.nrows P.ncols i).2) := by
    intro i hi
    obtain ⟨hcol, hrow⟩ :=
      get_col_row_lt P.direction P.nrows P.ncols hr hc i (by omega)
    rw [gridAxisLocator]
    constructor
    · simp only [gridBuildH_eq]
      rw [cellPositions_getD _ _ hcol]
      omega
    · simp only [gridBuildV_eq]
      rw [cellPositions_getD _ _ (by omega)]
      omega
  refine ⟨?_, hform, ?_, ?_, ?_⟩
  · intro i hi
    rw [gridAssignLocators, foldl_updk_id_lookup, if_pos hi]
  · intro i j hi hj hrows
    obtain ⟨_, hyi⟩ := hform i hi
    obtain ⟨_, hyj⟩ := hform j hj
    obtain ⟨_, hri⟩ :=
      get_col_row_lt P.direction P.nrows P.ncols hr hc i (by omega)
    obtain ⟨_, hrj⟩ :=
      get_col_row_lt P.direction P.nrows P.ncols hr hc j (by omega)
    rw [hyi, hyj]
    have : (P.nrows - 1 - (get_col_row P.direction P.nrows P.ncols j).2) <
        (P.nrows - 1 - (get_col_row P.direction P.nrows P.ncols i).2) := by
      omega
    omega
  · intro i hi
    refine ⟨?_, rfl⟩
    rw [imageAxisLocators, foldl_updk_id_lookup, if_pos hi]
  · intro hmode i hi
    refine ⟨?_, ?_, ?_⟩
    · rw [imageCbarLocators]
      simp only [hmode, Option.some.injEq, reduceCtorEq, false_and,
        if_false, ite_false]
      rw [List.foldl_ext (imageCbarLocStep P)
        (fun m i => updk m i (imageEachCbarLocator P i)) _
        (fun m j _ => by simp [imageCbarLocStep, hmode])]
      rw [foldl_updk_id_lookup, if_pos hi]
    · intro hlr
      rcases hlr with h | h <;>
        simp [imageEachCbarLocator, imageAxisLocator, h]
    · intro htb
      rcases htb with h | h <;>
        simp [imageEachCbarLocator, imageAxisLocator, h]

/-- A concrete configuration used by witnesses: 2×2 grid, row direction,
fully filled, `cbar_mode="each"`, `cbar_location="right"`. -/
def exampleEachParams : ImageParams :=
  ⟨Direction.row, 2, 2, 4, some CbarMode.each, CbarLocation.right,
    PadSpec.pct (1 / 20), PadSpec.num (1 / 50)⟩

theorem locator_row_inversion_witness :
    (0 < exampleEachParams.ngrids ∧
      exampleEachParams.ngrids ≤
        exampleEachParams.nrows * exampleEachParams.ncols) ∧
    (imageCbarLocators exampleEachParams 0 =
        some (imageEachCbarLocator exampleEachParams 0) ∧
      ((exampleEachParams.loc = CbarLocation.left ∨
          exampleEachParams.loc = CbarLocation.right) →
        (imageEachCbarLocator exampleEachParams 0).ny =
          (imageAxisLocator exampleEachParams 0).ny) ∧
      ((exampleEachParams.loc = CbarLocation.top ∨
          exampleEachParams.loc = CbarLocation.bottom) →
        (imageEachCbarLocator exampleEachParams 0).nx =
          (imageAxisLocator exampleEachParams 0).nx)) :=
  ⟨⟨by decide, by decide⟩,
    (locator_row_inversion exampleEachParams (by decide)
      (by decide)).2.2.2.2 rfl 0 (by decide)⟩

/-- C5: the two `Fixed` pads created at construction are the objects
stored in the Divider's sequences — every odd entry of either sequence is
the shared pad reference, not a copy — so `set_axes_pad((h, v))` mutates
them in place without touching the sequences: afterwards `get_axes_pad()`
returns exactly `(h, v)` and every stored pad entry resolves to the new
value, while the sequences themselves (their length and entries being a
pure function of the shape) are bitwise unchanged. -/
theorem axes_pad_aliasing (nrows ncols : ℕ) (st : PadState) (h v : ℚ) :
    get_axes_pad (set_axes_pad st (h, v)) = (h, v) ∧
    (∀ i, i < 2 * ncols - 1 → i % 2 = 1 →
      (gridBuildH ncols).1.getD i (SizeEntry.scaled 1) =
        SizeEntry.hpadRef ∧
      entryFixedSize (set_axes_pad st (h, v))
        ((gridBuildH ncols).1.getD i (SizeEntry.scaled 1)) = some h) ∧
    (∀ i, i < 2 * nrows - 1 → i % 2 = 1 →
      (gridBuildV nrows).1.getD i (SizeEntry.scaled 1) =
        SizeEntry.vpadRef ∧
      entryFixedSize (set_axes_pad st (h, v))
        ((gridBuildV nrows).1.getD i (SizeEntry.scaled 1)) = some v) := by
  refine ⟨rfl, fun i hi hodd => ?_, fun i hi hodd => ?_⟩
  · have he : (gridBuildH ncols).1.getD i (SizeEntry.scaled 1) =
        SizeEntry.hpadRef := by
      rw [gridBuildH_eq]
      have := interleaved_getD SizeEntry.hpadRef ncols i hi
      rw [if_neg (by omega)] at this
      exact this
    exact ⟨he, by rw [he]; rfl⟩
  · have he : (gridBuildV nrows).1.getD i (SizeEntry.scaled 1) =
        SizeEntry.vpadRef := by
      rw [gridBuildV_eq]
      have := interleaved_getD SizeEntry.vpadRef nrows i hi
      rw [if_neg (by omega)] at this
      exact this
    exact ⟨he, by rw [he]; rfl⟩

theorem axes_pad_aliasing_witness :
    (1 < 2 * 3 - 1 ∧ 1 % 2 = 1) ∧
      (gridBuildH 3).1.getD 1 (SizeEntry.scaled 1) = SizeEntry.hpadRef ∧
      entryFixedSize (set_axes_pad ⟨1 / 50, 1 / 50⟩ (1 / 10, 1 / 5))
        ((gridBuildH 3).1.getD 1 (SizeEntry.scaled 1)) = some (1 / 10) :=
  ⟨⟨by decide, by decide⟩,
    (axes_pad_aliasing 2 3 ⟨1 / 50, 1 / 50⟩ (1 / 10) (1 / 5)).2.1 1
      (by decide) (by decide)⟩

theorem foldl_setCell_col (n c : ℕ) (t : TickVis) (cs : Cells)
    (r0 c0 : ℕ) :
    ((List.range n).foldl (fun cs r => setCell cs r c t) cs) r0 c0 =
      if r0 < n ∧ c0 = c then t else cs r0 c0 := by
  induction n generalizing cs with
  | zero => simp
  | succ p ih =>
    rw [List.range_succ, List.foldl_append, List.foldl_cons, List.foldl_nil]
    show setCell ((List.range p).foldl (fun cs r => setCell cs r c t) cs)
      p c t r0 c0 = _
    rw [setCell]
    by_cases hp : r0 = p ∧ c0 = c
    · rw [if_pos hp, if_pos ⟨by omega, hp.2⟩]
    · rw [if_neg hp, ih]
      by_cases hlt : r0 < p ∧ c0 = c
      · rw [if_pos hlt, if_pos ⟨by omega, hlt.2⟩]
      · rw [if_neg hlt, if_neg (by
          rintro ⟨h1, h2⟩
          rcases Nat.lt_succ_iff_lt_or_eq.mp h1 with h | h
          · exact hlt ⟨h, h2⟩
          · exact hp ⟨h, h2⟩)]

theorem colPass_lookup (nrows c : ℕ) (tmid tlast : TickVis) (cs : Cells)
    (r0 c0 : ℕ) :
    setCell ((List.range (nrows - 1)).foldl
        (fun cs r => setCell cs r c tmid) cs)
      (nrows - 1) c tlast r0 c0 =
      if c0 = c ∧ r0 ≤ nrows - 1 then
        (if r0 = nrows - 1 then tlast else tmid)
      else cs r0 c0 := by
  rw [setCell]
  by_cases hlast : r0 = nrows - 1 ∧ c0 = c
  · rw [if_pos hlast, if_pos ⟨hlast.2, by omega⟩, if_pos hlast.1]
  · rw [if_neg hlast, foldl_setCell_col]
    by_cases hmid : r0 < nrows - 1 ∧ c0 = c
    · rw [if_pos hmid, if_pos ⟨hmid.2, by omega⟩, if_neg (by omega)]
    · rw [if_neg hmid, if_neg (by
        rintro ⟨h1, h2⟩
        rcases Nat.lt_or_eq_of_le h2 with h | h
        · exact hmid ⟨h, h1⟩
        · exact hlast ⟨h, h1⟩)]

theorem foldl_colPass (nrows m : ℕ) (tmid tlast : TickVis) (cs : Cells)
    (r0 c0 : ℕ) :
    ((List.range m).foldl
      (fun cs c1 =>
        setCell ((List.range (nrows - 1)).foldl
            (fun cs r => setCell cs r (c1 + 1) tmid) cs)
          (nrows - 1) (c1 + 1) tlast)
      cs) r0 c0 =
      if 1 ≤ c0 ∧ c0 ≤ m ∧ r0 ≤ nrows - 1 then
        (if r0 = nrows - 1 then tlast else tmid)
      else cs r0 c0 := by
  induction m generalizing cs with
  | zero =>
    simp only [List.range_zero, List.foldl_nil]
    rw [if_neg (by omega)]
  | succ p ih =>
    rw [List.range_succ, List.foldl_append, List.foldl_cons, List.foldl_nil]
    rw [colPass_lookup, ih]
    split_ifs <;> first | rfl | omega

/-- C6: after `set_label_mode("L")` on a fully filled grid, a cell shows
its bottom tick labels iff it is in the bottom row and its left tick
labels iff it is in the leftmost column. -/
theorem label_mode_L (nrows ncols : ℕ) (cs : Cells) (row col : ℕ)
    (hr : row < nrows) (hc : col < ncols) :
    setLabelModeL nrows ncols cs row col =
      ⟨decide (row = nrows - 1), decide (col = 0)⟩ := by
  rw [setLabelModeL]
  rw [foldl_colPass, colPass_lookup]
  split_ifs <;>
    first
    | (simp_all [tick_only]; omega)
    | (simp_all [tick_only])
    | (exfalso; omega)

theorem label_mode_L_witness :
    (0 < 2 ∧ 1 < 3) ∧
      setLabelModeL 2 3 (fun _ _ => ⟨true, true⟩) 0 1 =
        ⟨decide ((0 : ℕ) = 2 - 1), decide ((1 : ℕ) = 0)⟩ :=
  ⟨⟨by decide, by decide⟩,
    label_mode_L 2 3 (fun _ _ => ⟨true, true⟩) 0 1 (by decide) (by decide)⟩

/-- C7: after `set_label_mode("1")` on a 2×2 grid, exactly the bottom-left
cell (row 1, column 0) has both its bottom and left tick labels shown; the
other three cells have both suppressed. -/
theorem label_mode_1_2x2 (cs : Cells) (row col : ℕ)
    (hr : row < 2) (hc : col < 2) :
    setLabelMode1 2 2 cs row col =
      if row = 1 ∧ col = 0 then ⟨true, true⟩ else ⟨false, false⟩ := by
  rw [setLabelMode1]
  interval_cases row <;> interval_cases col <;>
    simp [List.range_succ, setCell, tick_only]

theorem label_mode_1_2x2_witness :
    (1 < 2 ∧ 0 < 2) ∧
      setLabelMode1 2 2 (fun _ _ => ⟨false, false⟩) 1 0 =
        (if 1 = 1 ∧ 0 = 0 then ⟨true, true⟩ else ⟨false, false⟩) :=
  ⟨⟨by decide, by decide⟩,
    label_mode_1_2x2 (fun _ _ => ⟨false, false⟩) 1 0 (by decide)
      (by decide)⟩

/-- C8: with `cbar_mode="single"` and `cbar_location="right"` the
horizontal sequence is exactly the pad-interleaved axis cells followed by
one appended colorbar pad and one colorbar size, both resolved against
`Fraction(nrows, AxesX(axes_llc))` — so exactly one colorbar cell exists,
placed after the last horizontal axis cell; the single colorbar axes gets
locator `(nx=-2, ny=0, ny1=-1)` and is visible, and every other colorbar
slot is invisible. -/
theorem single_right_colorbar (P : ImageParams)
    (h1 : P.mode = some CbarMode.single) (h2 : P.loc = CbarLocation.right)
    (hc : 0 < P.ncols) :
    (imageH P).seq =
      interleavedCells SizeEntry.hpadRef
          (fun c => SizeEntry.ref (hCellSz P c)) P.ncols ++
        [SizeEntry.fromAny P.cbPad (SizeRef.fracX P.nrows),
          SizeEntry.fromAny P.cbSize (SizeRef.fracX P.nrows)] ∧
    (∀ e ∈ interleavedCells SizeEntry.hpadRef
        (fun c => SizeEntry.ref (hCellSz P c)) P.ncols,
      ∀ sp r, e ≠ SizeEntry.fromAny sp r) ∧
    (interleavedCells SizeEntry.hpadRef
        (fun c => SizeEntry.ref (hCellSz P c)) P.ncols).getLast? =
      some (SizeEntry.ref (hCellSz P (P.ncols - 1))) ∧
    imageCbarLocators P 0 =
      some { nx := -2, ny := 0, ny1 := some (-1) } ∧
    imageCbarVisMap P 0 = true ∧
    (∀ i, 0 < i → i < P.ngrids → imageCbarVisMap P i = false) := by
  have hseq : (imageH P).seq =
      interleavedCells SizeEntry.hpadRef
          (fun c => SizeEntry.ref (hCellSz P c)) P.ncols ++
        [SizeEntry.fromAny P.cbPad (SizeRef.fracX P.nrows),
          SizeEntry.fromAny P.cbSize (SizeRef.fracX P.nrows)] := by
    rw [imageH, imageBuildH_single_right P h1 h2]
    rw [if_pos ⟨h1, h2⟩]
  refine ⟨hseq, ?_, interleavedCells_getLast _ _ _ hc, ?_, ?_, ?_⟩
  · intro e he sp r
    rcases interleavedCells_mem _ _ _ e he with h | ⟨c, _, h⟩ <;>
      subst h <;> simp
  · rw [imageCbarLocators]
    simp only [h1, h2, Option.some.injEq, reduceCtorEq, and_true, and_false,
      if_false, ite_false]
    rw [List.foldl_ext (imageCbarLocStep P)
      (fun m _ => m) _ (fun m j _ => by simp [imageCbarLocStep, h1])]
    rw [foldl_const]
    simp [updk]
  · rw [imageCbarVisMap]
    simp only [h1, h2, Option.some.injEq, reduceCtorEq, and_false, and_true,
      false_and, if_false, ite_false, true_or, if_true, ite_true]
    simp [updf]
  · intro i h0 hn
    rw [imageCbarVisMap]
    simp only [h1, h2, Option.some.injEq, reduceCtorEq, and_false, and_true,
      false_and, if_false, ite_false, true_or, if_true, ite_true]
    rw [updf, if_neg (by omega), setAllVis_lookup, if_pos hn]

/-- A concrete configuration for the single/right colorbar witness:
2×3 grid, row direction, fully filled, `cbar_mode="single"`,
`cbar_location="right"`. -/
def exampleSingleParams : ImageParams :=
  ⟨Direction.row, 2, 3, 6, some CbarMode.single, CbarLocation.right,
    PadSpec.pct (1 / 20), PadSpec.num (1 / 50)⟩

theorem single_right_colorbar_witness :
    (exampleSingleParams.mode = some CbarMode.single ∧
      exampleSingleParams.loc = CbarLocation.right ∧
      0 < exampleSingleParams.ncols) ∧
    ((imageH exampleSingleParams).seq =
      interleavedCells SizeEntry.hpadRef
          (fun c => SizeEntry.ref (hCellSz exampleSingleParams c))
          exampleSingleParams.ncols ++
        [SizeEntry.fromAny exampleSingleParams.cbPad
            (SizeRef.fracX exampleSingleParams.nrows),
          SizeEntry.fromAny exampleSingleParams.cbSize
            (SizeRef.fracX exampleSingleParams.nrows)] ∧
    (∀ e ∈ interleavedCells SizeEntry.hpadRef
        (fun c => SizeEntry.ref (hCellSz exampleSingleParams c))
        exampleSingleParams.ncols,
      ∀ sp r, e ≠ SizeEntry.fromAny sp r) ∧
    (interleavedCells SizeEntry.hpadRef
        (fun c => SizeEntry.ref (hCellSz exampleSingleParams c))
        exampleSingleParams.ncols).getLast? =
      some (SizeEntry.ref
        (hCellSz exampleSingleParams (exampleSingleParams.ncols - 1))) ∧
    imageCbarLocators exampleSingleParams 0 =
      some { nx := -2, ny := 0, ny1 := some (-1) } ∧
    imageCbarVisMap exampleSingleParams 0 = true ∧
    (∀ i, 0 < i → i < exampleSingleParams.ngrids →
      imageCbarVisMap exampleSingleParams i = false)) :=
  ⟨⟨rfl, rfl, by decide⟩,
    single_right_colorbar exampleSingleParams rfl rfl (by decide)⟩

/-- C9: a grid with `ngrids < nrows*ncols` still reports length
`nrows*ncols` through `__len__`, and `__getitem__` yields `None` exactly
at the slot positions the fill order never reached (and such a position
exists). -/
theorem grid_sequence_unfilled (direction : Direction)
    (nrows ncols ngrids : ℕ) (hg : 0 < ngrids)
    (hle : ngrids ≤ nrows * ncols) :
    gridLen direction nrows ncols ngrids = nrows * ncols ∧
    (∀ j, j < nrows * ncols →
      (gridGetitem direction nrows ncols ngrids j = none ↔
        ¬∃ i, i < ngrids ∧
          get_col_row direction nrows ncols i = (j % ncols, j / ncols))) ∧
    (ngrids < nrows * ncols → ∃ j, j < nrows * ncols ∧
      gridGetitem direction nrows ncols ngrids j = none) := by
  have hr : 0 < nrows := by
    rcases Nat.eq_zero_or_pos nrows with h | h
    · rw [h] at hle
      simp at hle
      omega
    · exact h
  have hc : 0 < ncols := by
    rcases Nat.eq_zero_or_pos ncols with h | h
    · rw [h] at hle
      simp at hle
      omega
    · exact h
  have hitem : ∀ j, j < nrows * ncols →
      gridGetitem direction nrows ncols ngrids j =
        axesArray direction nrows ncols ngrids (j / ncols, j % ncols) := by
    intro j hj
    rw [gridGetitem, axes_all, List.getD_eq_getElem?_getD,
      List.getElem?_map, List.getElem?_range hj]
    rfl
  have hnone : ∀ j, j < nrows * ncols →
      (gridGetitem direction nrows ncols ngrids j = none ↔
        ¬∃ i, i < ngrids ∧
          get_col_row direction nrows ncols i = (j % ncols, j / ncols)) := by
    intro j hj
    rw [hitem j hj, axesArray_lookup direction nrows ncols ngrids hr hc]
    split
    · next hex => simp [hex]
    · next hex => simp [hex]
  refine ⟨by simp [gridLen, axes_all], hnone, fun hlt => ?_⟩
  obtain ⟨hcol, hrow⟩ :=
    get_col_row_lt direction nrows ncols hr hc ngrids hlt
  refine ⟨(get_col_row direction nrows ncols ngrids).2 * ncols +
      (get_col_row direction nrows ncols ngrids).1, ?_, ?_⟩
  · calc (get_col_row direction nrows ncols ngrids).2 * ncols +
        (get_col_row direction nrows ncols ngrids).1
        < (get_col_row direction nrows ncols ngrids).2 * ncols + ncols :=
          by omega
      _ = ((get_col_row direction nrows ncols ngrids).2 + 1) * ncols := by
          ring
      _ ≤ nrows * ncols := Nat.mul_le_mul_right _ (by omega)
  · rw [hnone _ (by
      calc (get_col_row direction nrows ncols ngrids).2 * ncols +
          (get_col_row direction nrows ncols ngrids).1
          < (get_col_row direction nrows ncols ngrids).2 * ncols + ncols :=
            by omega
        _ = ((get_col_row direction nrows ncols ngrids).2 + 1) * ncols := by
            ring
        _ ≤ nrows * ncols := Nat.mul_le_mul_right _ (by omega))]
    have hmod : ((get_col_row direction nrows ncols ngrids).2 * ncols +
        (get_col_row direction nrows ncols ngrids).1) % ncols =
        (get_col_row direction nrows ncols ngrids).1 := by
      rw [Nat.add_comm, Nat.add_mul_mod_self_right]
      exact Nat.mod_eq_of_lt hcol
    have hdiv : ((get_col_row direction nrows ncols ngrids).2 * ncols +
        (get_col_row direction nrows ncols ngrids).1) / ncols =
        (get_col_row direction nrows ncols ngrids).2 := by
      rw [Nat.add_comm, Nat.add_mul_div_right _ _ hc,
        Nat.div_eq_of_lt hcol]
      omega
    rw [hmod, hdiv]
    rintro ⟨i, hi, hieq⟩
    have : i = ngrids :=
      get_col_row_inj direction nrows ncols hr hc i ngrids (by
        rw [hieq])
    omega

theorem grid_sequence_unfilled_witness :
    (0 < 4 ∧ 4 ≤ 2 * 3 ∧ 4 < 2 * 3) ∧
      gridLen Direction.row 2 3 4 = 2 * 3 ∧
      (∃ j, j < 2 * 3 ∧ gridGetitem Direction.row 2 3 4 j = none) :=
  ⟨⟨by decide, by decide, by decide⟩,
    (grid_sequence_unfilled Direction.row 2 3 4 (by decide) (by decide)).1,
    (grid_sequence_unfilled Direction.row 2 3 4 (by decide)
      (by decide)).2.2 (by decide)⟩

/-- C10: when `cbar_pad=None`, the colorbar pad is the numeric value read
out of the shared pad object at construction time; a later
`set_axes_pad` changes what the shared pad entries resolve to, but every
colorbar pad entry of the sequences still resolves to the construction
snapshot. -/
theorem cbar_pad_snapshot (P : ImageParams) (st0 : PadState) (h v : ℚ)
    (hloc : P.loc = CbarLocation.left ∨ P.loc = CbarLocation.right)
    (hpadspec : P.cbPad = PadSpec.num (colorbar_pad st0 P.loc none)) :
    colorbar_pad st0 P.loc none = st0.hpad ∧
    get_axes_pad (set_axes_pad st0 (h, v)) = (h, v) ∧
    (∀ e ∈ (imageH P).seq,
      (∀ r, e = SizeEntry.fromAny P.cbPad r →
        entryFixedSize (set_axes_pad st0 (h, v)) e = some st0.hpad) ∧
      (e = SizeEntry.hpadRef →
        entryFixedSize (set_axes_pad st0 (h, v)) e = some h)) ∧
    (P.mode = some CbarMode.single → P.loc = CbarLocation.right →
      SizeEntry.fromAny P.cbPad (SizeRef.fracX P.nrows) ∈ (imageH P).seq) := by
  have hval : colorbar_pad st0 P.loc none = st0.hpad := by
    rw [colorbar_pad]
    rw [if_pos hloc]
  refine ⟨hval, rfl, fun e _ => ⟨fun r her => ?_, fun heh => ?_⟩, ?_⟩
  · subst her
    rw [hpadspec, hval, entryFixedSize]
  · subst heh
    rfl
  · intro h1 h2
    rw [imageH, imageBuildH_single_right P h1 h2, if_pos ⟨h1, h2⟩]
    simp

theorem cbar_pad_snapshot_witness :
    (exampleSingleParams.loc = CbarLocation.left ∨
        exampleSingleParams.loc = CbarLocation.right) ∧
    exampleSingleParams.cbPad =
      PadSpec.num (colorbar_pad ⟨1 / 50, 1 / 50⟩
        exampleSingleParams.loc none) ∧
    (colorbar_pad ⟨1 / 50, 1 / 50⟩ exampleSingleParams.loc none =
        (⟨1 / 50, 1 / 50⟩ : PadState).hpad ∧
      get_axes_pad (set_axes_pad ⟨1 / 50, 1 / 50⟩ (1 / 10, 1 / 5)) =
        (1 / 10, 1 / 5) ∧
      (∀ e ∈ (imageH exampleSingleParams).seq,
        (∀ r, e = SizeEntry.fromAny exampleSingleParams.cbPad r →
          entryFixedSize (set_axes_pad ⟨1 / 50, 1 / 50⟩ (1 / 10, 1 / 5)) e =
            some (⟨1 / 50, 1 / 50⟩ : PadState).hpad) ∧
        (e = SizeEntry.hpadRef →
          entryFixedSize (set_axes_pad ⟨1 / 50, 1 / 50⟩ (1 / 10, 1 / 5)) e =
            some (1 / 10))) ∧
      (exampleSingleParams.mode = some CbarMode.single →
        exampleSingleParams.loc = CbarLocation.right →
        SizeEntry.fromAny exampleSingleParams.cbPad
            (SizeRef.fracX exampleSingleParams.nrows) ∈
          (imageH exampleSingleParams).seq)) :=
  ⟨Or.inr rfl, by norm_num [exampleSingleParams, colorbar_pad],
    cbar_pad_snapshot exampleSingleParams ⟨1 / 50, 1 / 50⟩ (1 / 10) (1 / 5)
      (Or.inr rfl) (by norm_num [exampleSingleParams, colorbar_pad])⟩

end AxesGrid
